import Mathlib

/-!
# Verification of the `tbv` package-verification pipeline

Shallow embedding of `src/verifier.ts` (class `Verifier`): the pipeline
`verify = registry → checkout → pack → compare` with its progress state,
fail flag, working directory and executed-command log made explicit.
External collaborators (HTTP GET, subprocess execution, temp-directory
allocation) are modelled by an `Oracle` that fixes the outcome of each
call site; the pipeline is a pure function of the oracle.  The `Except`
channel of each phase is where an uncaught exception would surface; the
source catches every fault, so every phase returns `.ok`.
-/

namespace Tbv

/-- Step status, mirroring the status strings used in `verifier.ts`
(`'pending' | 'working' | 'pass' | 'fail' | 'warn' | 'skipped'`). -/
inductive Status where
  | pending
  | working
  | pass
  | fail
  | warn
  | skipped
deriving DecidableEq, Repr

/-- The seven step identifiers of `VerifyProgress` (`verifier.ts`, type at the
bottom of the file), in pipeline order. -/
inductive StepId where
  | registry
  | repo
  | gitHead
  | checkout
  | install
  | pack
  | compare
deriving DecidableEq, Repr

/-- Pipeline order of the steps: `registry, repo, gitHead, checkout, install,
pack, compare`. -/
def stepIdx : StepId → Nat
  | .registry => 0
  | .repo => 1
  | .gitHead => 2
  | .checkout => 3
  | .install => 4
  | .pack => 5
  | .compare => 6

/-- A progress step (`Step` from the engine module): status, title and an
optional message. -/
structure Step where
  status : Status
  title : String
  message : Option String := none
deriving DecidableEq, Repr

/-- `VerifyProgress`: the fixed record of seven steps (`verifier.ts`). -/
structure Progress where
  registry : Step
  repo : Step
  gitHead : Step
  checkout : Step
  install : Step
  pack : Step
  compare : Step
deriving DecidableEq, Repr

/-- `createProgress()` from `verifier.ts`: all steps `pending` with their
titles. -/
def createProgress : Progress where
  registry := { status := .pending, title := "Fetch package data from registry" }
  repo := { status := .pending, title := "Version contains repository URL" }
  gitHead := { status := .pending, title := "Version contains gitHead" }
  checkout := { status := .pending, title := "Shallow checkout" }
  install := { status := .pending, title := "Install npm packages" }
  pack := { status := .pending, title := "Create package" }
  compare := { status := .pending, title := "Compare shasums" }

def getStep (p : Progress) : StepId → Step
  | .registry => p.registry
  | .repo => p.repo
  | .gitHead => p.gitHead
  | .checkout => p.checkout
  | .install => p.install
  | .pack => p.pack
  | .compare => p.compare

def setStep (p : Progress) (id : StepId) (st : Step) : Progress :=
  match id with
  | .registry => { p with registry := st }
  | .repo => { p with repo := st }
  | .gitHead => { p with gitHead := st }
  | .checkout => { p with checkout := st }
  | .install => { p with install := st }
  | .pack => { p with pack := st }
  | .compare => { p with compare := st }

/-- Engine state threaded through the pipeline: the progress record and fail
flag of the engine, plus the two pieces of ambient process state the pipeline
touches (current working directory, issued subprocess commands) and a
chronological log of every status update (used to state trace properties).
The rendering side (`hasPrinted`, terminal output) is outside the core's
contract and is not modelled. -/
structure EngState where
  progress : Progress
  hasFailed : Bool
  cwd : String
  cmds : List String
  trace : List (StepId × Status)
deriving DecidableEq, Repr

/-- Modelled from the spec: the `Engine.updateProgress` operation lives in
`src/engine.ts`, which is not among the provided sources; spec §4.1 defines
it as "sets the named step's status/message, sets the run's fail flag if
`status == Fail`, and invokes the render hook" (the render hook is external
and not modelled).  The update is also appended to the event trace. -/
def updateProgress (s : EngState) (id : StepId) (st : Status)
    (msg : Option String := none) : EngState :=
  { s with
    progress := setStep s.progress id
      { getStep s.progress id with status := st, message := msg }
    hasFailed := s.hasFailed || decide (st = .fail)
    trace := s.trace ++ [(id, st)] }

/-- JavaScript string interpolation of a possibly-`undefined` value:
`${x}` renders `undefined` as `"undefined"`. -/
def showJs : Option String → String
  | some s => s
  | none => "undefined"

/-- JavaScript truthiness of a string-or-`undefined` value: `undefined` and
`""` are falsy. -/
def jsTruthy : Option String → Bool
  | none => false
  | some s => decide (s ≠ "")

/-- JavaScript `a || b` on string-or-`undefined` values (`""` is falsy). -/
def jsOrStr (a b : Option String) : Option String :=
  match a with
  | some s => if s = "" then b else some s
  | none => b

/-- JavaScript `s.startsWith(pre)` (code-unit prefix test), implemented on the
character list so that it evaluates inside the kernel. -/
def strStartsWith (s pre : String) : Bool :=
  decide (s.data.take pre.data.length = pre.data)

/-- The repository-URL normalization of `verifier.ts` lines 112–114:
`url.startsWith('git+') ? url.substring(4) : url`. -/
def normalizeRepoUrl (url : String) : String :=
  if strStartsWith url "git+" then ⟨url.data.drop 4⟩ else url

/-! ## The shasum regex

`verifier.ts` line 280 extracts the digest with
`/shasum:\s+([0-9a-f]{40})/.exec(stdout)[1]`: the literal `shasum:`, one or
more whitespace characters, then exactly forty lowercase hex digits, searched
left to right for the first match.  Because no hex digit is a whitespace
character, the greedy `\s+` never needs backtracking, so maximal munch is
faithful. -/

/-- The character class `[0-9a-f]` (by code point). -/
def isHexChar (c : Char) : Bool :=
  (48 ≤ c.toNat && c.toNat ≤ 57) || (97 ≤ c.toNat && c.toNat ≤ 102)

/-- The JavaScript `\s` character class (by code point). -/
def isJsWs (c : Char) : Bool :=
  (9 ≤ c.toNat && c.toNat ≤ 13) || c.toNat = 32 || c.toNat = 160 ||
  c.toNat = 5760 || (8192 ≤ c.toNat && c.toNat ≤ 8202) ||
  c.toNat = 8232 || c.toNat = 8233 || c.toNat = 8239 || c.toNat = 8287 ||
  c.toNat = 12288 || c.toNat = 65279

/-- Strip a literal character sequence from the front of a list. -/
def stripLit : List Char → List Char → Option (List Char)
  | [], cs => some cs
  | _ :: _, [] => none
  | p :: ps, c :: cs => if c = p then stripLit ps cs else none

/-- Take exactly `n` characters satisfying `p`; return them and the rest. -/
def takeCount (p : Char → Bool) : Nat → List Char → Option (List Char × List Char)
  | 0, cs => some ([], cs)
  | _ + 1, [] => none
  | n + 1, c :: cs =>
    if p c then (takeCount p n cs).map (fun r => (c :: r.1, r.2)) else none

/-- Match `shasum:\s+([0-9a-f]{40})` anchored at the start of `cs`; return the
captured group. -/
def matchShasumAt (cs : List Char) : Option (List Char) :=
  match stripLit "shasum:".data cs with
  | none => none
  | some rest =>
    match rest with
    | [] => none
    | c :: rest2 =>
      if isJsWs c then
        match takeCount isHexChar 40 (rest2.dropWhile isJsWs) with
        | some r => some r.1
        | none => none
      else none

/-- Left-to-right search for the first match of the shasum pattern. -/
def scanShasum : List Char → Option (List Char)
  | [] => none
  | c :: cs =>
    match matchShasumAt (c :: cs) with
    | some h => some h
    | none => scanShasum cs

/-- `verifier.ts` line 280: first match of `/shasum:\s+([0-9a-f]{40})/` in the
pack output, or `none` when `.exec` returns `null` (in which case the source's
`null[1]` throws and is caught at line 281). -/
def extractShasum (s : String) : Option String :=
  (scanShasum s.data).map fun l => ⟨l⟩

/-! ## Registry data model

The shape of the JSON the registry returns (spec §6), with every field the
source reads made optional, since the source guards each access. -/

structure Dist where
  shasum : Option String := none
deriving DecidableEq, Repr

structure Repository where
  rtype : Option String := none
  url : Option String := none
deriving DecidableEq, Repr

structure VersionInfo where
  repository : Option Repository := none
  gitHead : Option String := none
  /-- the legacy `_shasum` field -/
  underscoreShasum : Option String := none
  dist : Option Dist := none
deriving DecidableEq, Repr

structure RegistryInfo where
  distTags : Option (List (String × String)) := none
  versions : Option (List (String × VersionInfo)) := none
deriving DecidableEq, Repr

/-- Outcomes of every external-collaborator call site of one run: the HTTP
GET, temp-directory allocation, and each subprocess invocation (spec §4.1;
each is "success or failure", with the payloads the source consumes —
`none` means the call failed / the promise rejected). -/
structure Oracle where
  httpGet : Option RegistryInfo
  createTempResult : Option String
  gitInitOk : Bool
  gitRemoteAddOk : Bool
  fetchCommitOk : Bool
  fetchVTagOk : Bool
  fetchTagOk : Bool
  checkoutHeadOk : Bool
  npmPackFirst : Option String
  npmCiOk : Bool
  npmPackRetry : Option String
deriving DecidableEq, Repr

/-- The result record of the registry phase (`verifier.ts` lines 34–39): every
field optional, exactly as TypeScript destructuring of a partial object. -/
structure RegRes where
  resolvedVersion : Option String := none
  repoUrl : Option String := none
  gitHead : Option String := none
  shasum : Option String := none
deriving DecidableEq, Repr

structure CheckoutRes where
  tempDir : Option String := none
  refspec : Option String := none
deriving DecidableEq, Repr

structure PackRes where
  remoteShasum : Option String := none
deriving DecidableEq, Repr

/-- The uncaught-exception channel: a phase would return `.error` only if a
fault escaped its `try`/`catch` structure. -/
abbrev ExcM (α : Type) := Except Unit (α × EngState)

/-- `verifier.ts` line 57:
`(info['dist-tags'] && info['dist-tags'][version || 'latest']) || version`. -/
def resolvedVersionOf (info : RegistryInfo) (version : String) : String :=
  let tag : Option String :=
    match info.distTags with
    | none => none
    | some m => m.lookup (if version = "" then "latest" else version)
  match tag with
  | some t => if t = "" then version else t
  | none => version

/-- `verifier.ts` line 68: `!!info.versions && info.versions[resolvedVersion]`. -/
def versionInfoOf (info : RegistryInfo) (rv : String) : Option VersionInfo :=
  match info.versions with
  | none => none
  | some vs => vs.lookup rv

/-- `verifier.ts` line 130:
`versionInfo['_shasum'] || (versionInfo.dist && versionInfo.dist.shasum)`. -/
def shasumOf (vi : VersionInfo) : Option String :=
  jsOrStr vi.underscoreShasum
    (match vi.dist with
     | none => none
     | some d => d.shasum)

/-- The `registry` phase (`verifier.ts` lines 31–134).  Note line 133 returns
`{ resolvedVersion, repoUrl, shasum }` — the `gitHead` field is **not** part
of the returned object, so the result's `gitHead` is always `none`. -/
def registry (o : Oracle) (packageName version : String) (s0 : EngState) :
    ExcM RegRes :=
  let s := updateProgress s0 .registry .working
  match o.httpGet with
  | none =>
    .ok ({}, updateProgress s .registry .fail
      (some "Error fetching package data from registry"))
  | some info =>
    let resolvedVersion := resolvedVersionOf info version
    if resolvedVersion = "" then
      .ok ({}, updateProgress s .registry .fail
        (some ("Cannot resolve version " ++ version)))
    else
      match versionInfoOf info resolvedVersion with
      | none =>
        .ok ({}, updateProgress s .registry .fail
          (some ("Cannot find info for version " ++ resolvedVersion ++ " <<<<")))
      | some versionInfo =>
        let s := updateProgress s .registry .pass
        let s := updateProgress s .repo .working
        match versionInfo.repository with
        | none =>
          .ok ({}, updateProgress s .repo .fail
            (some ("Repository is not specified for version " ++ resolvedVersion)))
        | some repo =>
          if repo.rtype ≠ some "git" then
            .ok ({}, updateProgress s .repo .fail
              (some ("Non-git (" ++ showJs repo.rtype ++
                ") repository specified for version " ++ resolvedVersion)))
          else if jsTruthy repo.url = false then
            .ok ({}, updateProgress s .repo .fail
              (some ("Repository URL is not specified for version " ++ resolvedVersion)))
          else
            let repoUrl := normalizeRepoUrl (showJs repo.url)
            let s := updateProgress s .repo .pass
            let s := updateProgress s .gitHead .working
            let s :=
              if jsTruthy versionInfo.gitHead then s
              else updateProgress s .gitHead .warn
                (some ("GitHead is not specified for version " ++ resolvedVersion))
            let s := updateProgress s .gitHead .pass
            let shasum := shasumOf versionInfo
            .ok ({ resolvedVersion := some resolvedVersion,
                   repoUrl := some repoUrl,
                   gitHead := none,
                   shasum := shasum }, s)

/-- `verifier.ts` lines 219–230: `git checkout FETCH_HEAD` and the final
restore/pass of the checkout phase. -/
def checkoutFinish (o : Oracle) (cwd tempDir : String) (refspec : Option String)
    (s0 : EngState) : ExcM CheckoutRes :=
  let s := { s0 with cmds := s0.cmds ++ ["git checkout FETCH_HEAD"] }
  if o.checkoutHeadOk then
    let s := { s with cwd := cwd }
    let s := updateProgress s .checkout .pass
    .ok ({ tempDir := some tempDir, refspec := refspec }, s)
  else
    let s := updateProgress s .checkout .fail (some "Unable to checkout FETCH_HEAD")
    .ok ({ tempDir := some tempDir, refspec := refspec }, { s with cwd := cwd })

/-- The `checkout` phase (`verifier.ts` lines 136–231). -/
def checkout (o : Oracle) (repoUrl gitHead resolvedVersion : Option String)
    (s0 : EngState) : ExcM CheckoutRes :=
  let s := updateProgress s0 .checkout .working
  let cwd := s.cwd
  match o.createTempResult with
  | none =>
    .ok ({}, updateProgress s .checkout .fail (some "Error creating temp directory"))
  | some tempDir =>
    let s := { s with cwd := tempDir }
    let s := { s with cmds := s.cmds ++ ["git init"] }
    if o.gitInitOk = false then
      let s := updateProgress s .checkout .fail
        (some "Error initializing git repo in temp directory")
      .ok ({ tempDir := some tempDir }, { s with cwd := cwd })
    else
      let s := { s with cmds :=
        s.cmds ++ ["git remote add origin \"" ++ showJs repoUrl ++ "\""] }
      if o.gitRemoteAddOk = false then
        let s := updateProgress s .checkout .fail
          (some "Error initializing git repo in temp directory")
        .ok ({ tempDir := some tempDir }, { s with cwd := cwd })
      else
        if jsTruthy gitHead then
          let g := gitHead.getD ""
          let s := { s with cmds := s.cmds ++ ["git fetch --depth 1 origin " ++ g] }
          if o.fetchCommitOk then
            checkoutFinish o cwd tempDir (some g) s
          else
            let s := updateProgress s .checkout .fail
              (some ("Unable fetch commit from remote (" ++ (⟨g.data.take 7⟩ : String) ++ ")"))
            .ok ({ tempDir := some tempDir }, { s with cwd := cwd })
        else
          let s := { s with cmds :=
            s.cmds ++ ["git fetch --depth 1 origin tags/v" ++ showJs resolvedVersion] }
          if o.fetchVTagOk then
            checkoutFinish o cwd tempDir (some ("tags/v" ++ showJs resolvedVersion)) s
          else
            let s := { s with cmds :=
              s.cmds ++ ["git fetch --depth 1 origin tags/" ++ showJs resolvedVersion] }
            if o.fetchTagOk then
              checkoutFinish o cwd tempDir (some ("tags/" ++ showJs resolvedVersion)) s
            else
              let s := updateProgress s .checkout .fail
                (some ("Unable fetch tag from remote (tags/" ++ showJs resolvedVersion ++
                  " or tags/v" ++ showJs resolvedVersion ++ ")"))
              .ok ({ tempDir := some tempDir }, { s with cwd := cwd })

/-- `verifier.ts` lines 277–293: parse the shasum out of the pack output, then
pass/fail and restore the working directory. -/
def packParse (stdout : String) (cwd : String) (s0 : EngState) : ExcM PackRes :=
  match extractShasum stdout with
  | none =>
    let s := updateProgress s0 .pack .fail (some "Error parsing shasum from pack output")
    .ok ({}, { s with cwd := cwd })
  | some remoteShasum =>
    let s := updateProgress s0 .pack .pass
    .ok ({ remoteShasum := some remoteShasum }, { s with cwd := cwd })

/-- The `pack` phase (`verifier.ts` lines 233–294).  The retry-failure message
concatenates the caught error (`'Error creating package from remote files' + err`);
the error's rendering is external, so only the literal part is modelled. -/
def pack (o : Oracle) (tempDir : Option String) (s0 : EngState) : ExcM PackRes :=
  let s := updateProgress s0 .pack .working
  let cwd := s.cwd
  let s := { s with cwd := showJs tempDir }
  let s := { s with cmds := s.cmds ++ ["npm pack --dry-run"] }
  match o.npmPackFirst with
  | some stdout =>
    let s := updateProgress s .install .skipped
    packParse stdout cwd s
  | none =>
    let s := updateProgress s .pack .pending (some "Waiting for dependencies")
    let s := updateProgress s .install .working
    let s := { s with cmds := s.cmds ++ ["npm ci"] }
    if o.npmCiOk then
      let s := updateProgress s .install .pass
      let s := updateProgress s .pack .working
      let s := { s with cmds := s.cmds ++ ["npm pack --dry-run"] }
      match o.npmPackRetry with
      | some stdout => packParse stdout cwd s
      | none =>
        let s := updateProgress s .pack .fail
          (some "Error creating package from remote files")
        .ok ({}, { s with cwd := cwd })
    else
      let s := updateProgress s .install .fail (some "Error installing dependencies")
      .ok ({}, { s with cwd := cwd })

/-- The `compare` phase (`verifier.ts` lines 296–304): strict (`===`) equality
of the two digests; `undefined === undefined` is `true`, `undefined === s` is
`false` for a string `s`. -/
def compare (registryShasum remoteShasum : Option String) (s0 : EngState) : EngState :=
  let s := updateProgress s0 .compare .working
  if registryShasum = remoteShasum then
    updateProgress s .compare .pass
  else
    updateProgress s .compare .fail (some "Shasums do not match")

/-- Fresh engine state at the start of a run (`verify` lines 5–7 reset the
progress and flags; the working directory is whatever the process had). -/
def initState (cwd : String) : EngState :=
  { progress := createProgress, hasFailed := false, cwd := cwd,
    cmds := [], trace := [] }

/-- `Verifier.verify` (`verifier.ts` lines 4–29): run the four phases in
order, checking the fail flag after each. -/
def verify (o : Oracle) (packageName version cwd0 : String) :
    Except Unit (Bool × EngState) :=
  match registry o packageName version (initState cwd0) with
  | .error e => .error e
  | .ok (r, s) =>
    if s.hasFailed then .ok (false, s) else
    match checkout o r.repoUrl r.gitHead r.resolvedVersion s with
    | .error e => .error e
    | .ok (c, s) =>
      if s.hasFailed then .ok (false, s) else
      match pack o c.tempDir s with
      | .error e => .error e
      | .ok (p, s) =>
        if s.hasFailed then .ok (false, s) else
        let s := compare r.shasum p.remoteShasum s
        if s.hasFailed then .ok (false, s) else .ok (true, s)

/-! ## Trace observations

The spec's invariant section (§3) speaks about the chronological sequence of
status updates of a run; these definitions turn the recorded `trace` into the
decidable observations the claims are stated with. -/

/-- Rank of a status along the progression `Pending → Working → final`
(spec §3: "A step's status is monotonic within a run:
`Pending → Working → {Pass|Fail|Warn|Skipped}`"). -/
def statusRank : Status → Nat
  | .pending => 0
  | .working => 1
  | _ => 2

/-- Adjacent-pairs check: ranks never decrease. -/
def ranksMono : List Status → Bool
  | [] => true
  | [_] => true
  | a :: b :: rest => Nat.ble (statusRank a) (statusRank b) && ranksMono (b :: rest)

/-- Adjacent-pairs check that additionally allows the single backward move
`Working → Pending` (the pack step's "Waiting for dependencies" reset,
`verifier.ts` line 252). -/
def ranksMonoOrReset : List Status → Bool
  | [] => true
  | [_] => true
  | a :: b :: rest =>
    (Nat.ble (statusRank a) (statusRank b) ||
      (decide (a = .working) && decide (b = .pending))) &&
    ranksMonoOrReset (b :: rest)

/-- The chronological status sequence of one step within a trace. -/
def stepStatuses (k : StepId) (tr : List (StepId × Status)) : List Status :=
  (tr.filter fun e => decide (e.1 = k)).map fun e => e.2

def allStepIds : List StepId :=
  [.registry, .repo, .gitHead, .checkout, .install, .pack, .compare]

/-- Every step's status sequence is forward-only (the claim of spec §3). -/
def traceMonoB (tr : List (StepId × Status)) : Bool :=
  allStepIds.all fun k => ranksMono (stepStatuses k tr)

/-- Every step's status sequence is forward-only, except that the `pack` step
may be reset from `Working` back to `Pending`. -/
def traceMonoExceptPackB (tr : List (StepId × Status)) : Bool :=
  allStepIds.all fun k =>
    if k = .pack then ranksMonoOrReset (stepStatuses k tr)
    else ranksMono (stepStatuses k tr)

/-- The status-update trace of a run (empty on the impossible uncaught-throw
channel). -/
def traceOf (o : Oracle) (packageName version cwd0 : String) :
    List (StepId × Status) :=
  match verify o packageName version cwd0 with
  | .ok r => r.2.trace
  | .error _ => []

/-- The engine state a phase computation ends in (`dflt` on the impossible
uncaught-throw channel). -/
def phaseState {α : Type} (x : ExcM α) (dflt : EngState) : EngState :=
  match x with
  | .ok r => r.2
  | .error _ => dflt

/-- The result value a phase computation produces. -/
def phaseRes {α : Type} (x : ExcM α) (dflt : α) : α :=
  match x with
  | .ok r => r.1
  | .error _ => dflt

/-- The final engine state of a run. -/
def stateOf (o : Oracle) (packageName version cwd0 : String) : EngState :=
  phaseState (verify o packageName version cwd0) (initState cwd0)

/-- The boolean result of a run. -/
def boolOf (o : Oracle) (packageName version cwd0 : String) : Bool :=
  phaseRes (verify o packageName version cwd0) false

/-- The subprocess commands a run issued, in order. -/
def cmdsOf (o : Oracle) (packageName version cwd0 : String) : List String :=
  (stateOf o packageName version cwd0).cmds

/-! ## Concrete fixtures

Concrete registry responses and collaborator behaviours used to evaluate the
pipeline at specific inputs. -/

/-- A 40-character lowercase-hex digest. -/
def hexA : String := "aaaaaaaaaaaaaaaaaaaaaaaaaaaaaaaaaaaaaaaa"

/-- Registry metadata with a git repository, a `gitHead` commit and a
`dist.shasum` digest for the resolved version `1.2.3`. -/
def infoFull : RegistryInfo :=
  { distTags := some [("latest", "1.2.3")],
    versions := some [("1.2.3",
      { repository := some { rtype := some "git", url := some "git+https://x/y.git" },
        gitHead := some "abc1234def0",
        underscoreShasum := none,
        dist := some { shasum := some hexA } })] }

/-- Like `infoFull` but without a `gitHead`. -/
def infoNoGitHead : RegistryInfo :=
  { distTags := some [("latest", "1.2.3")],
    versions := some [("1.2.3",
      { repository := some { rtype := some "git", url := some "git+https://x/y.git" },
        gitHead := none,
        underscoreShasum := none,
        dist := some { shasum := some hexA } })] }

/-- Like `infoFull` but with neither `_shasum` nor `dist.shasum`
(and no `gitHead`). -/
def infoNoShasum : RegistryInfo :=
  { distTags := some [("latest", "1.2.3")],
    versions := some [("1.2.3",
      { repository := some { rtype := some "git", url := some "git+https://x/y.git" },
        gitHead := none,
        underscoreShasum := none,
        dist := none })] }

/-- Collaborators all succeed; the pack output carries the digest `hexA`. -/
def oracleHappy : Oracle :=
  { httpGet := some infoFull,
    createTempResult := some "/tmp/t1",
    gitInitOk := true, gitRemoteAddOk := true,
    fetchCommitOk := true, fetchVTagOk := true, fetchTagOk := true,
    checkoutHeadOk := true,
    npmPackFirst := some ("shasum: " ++ hexA),
    npmCiOk := true,
    npmPackRetry := none }

/-- The first `npm pack` attempt fails, and so does `npm ci`: drives the pack
step through its `Working → Pending` reset into an install failure. -/
def oracleReset : Oracle :=
  { oracleHappy with npmPackFirst := none, npmCiOk := false }

/-- The registry GET fails. -/
def oracleHttpFail : Oracle :=
  { oracleHappy with httpGet := none }

/-- All collaborators succeed but the registry metadata carries no digest. -/
def oracleNoShasum : Oracle :=
  { oracleHappy with httpGet := some infoNoShasum }

/-- All collaborators succeed and the registry metadata has no `gitHead`. -/
def oracleNoGitHead : Oracle :=
  { oracleHappy with httpGet := some infoNoGitHead }

/-- The first `npm pack` output carries no digest. -/
def oracleBadPack : Oracle :=
  { oracleHappy with npmPackFirst := some "npm notice" }

/-- The `tags/v…` fetch fails but the `tags/…` fetch succeeds. -/
def oracleTagFallback : Oracle :=
  { oracleHappy with fetchVTagOk := false }

/-- Both tag fetches fail. -/
def oracleNoTags : Oracle :=
  { oracleHappy with fetchVTagOk := false, fetchTagOk := false }

/-- Steps of `ks` are untouched between two engine states. -/
def untouched (s0 s1 : EngState) (ks : List StepId) : Prop :=
  ∀ k ∈ ks, getStep s1.progress k = getStep s0.progress k

/-- The output contains a substring matching `shasum:\s+([0-9a-f]{40})`:
some occurrence of the literal `shasum:`, then one or more whitespace
characters, then exactly forty lowercase hex digits. -/
def HasShasumMatch (s : String) : Prop :=
  ∃ pre w hex post, s.data = pre ++ "shasum:".data ++ w ++ hex ++ post ∧
    w ≠ [] ∧ w.all isJsWs = true ∧ hex.length = 40 ∧ hex.all isHexChar = true

/-! ## Phase characterizations

Each phase always returns `.ok`, extends the trace by one of finitely many
event lists, and leaves the steps it does not own untouched. -/

lemma registry_char (o : Oracle) (p v : String) (s0 : EngState)
    (h0 : s0.hasFailed = false) :
    ∃ r s1, registry o p v s0 = Except.ok (r, s1) ∧
      ((s1.hasFailed = true ∧
          s1.trace = s0.trace ++ [(.registry, .working), (.registry, .fail)] ∧
          (getStep s1.progress .registry).status = .fail ∧
          untouched s0 s1 [.repo, .gitHead, .checkout, .install, .pack, .compare]) ∨
       (s1.hasFailed = true ∧
          s1.trace = s0.trace ++ [(.registry, .working), (.registry, .pass),
            (.repo, .working), (.repo, .fail)] ∧
          (getStep s1.progress .repo).status = .fail ∧
          untouched s0 s1 [.gitHead, .checkout, .install, .pack, .compare]) ∨
       (s1.hasFailed = false ∧
          (s1.trace = s0.trace ++ [(.registry, .working), (.registry, .pass),
             (.repo, .working), (.repo, .pass), (.gitHead, .working),
             (.gitHead, .warn), (.gitHead, .pass)] ∨
           s1.trace = s0.trace ++ [(.registry, .working), (.registry, .pass),
             (.repo, .working), (.repo, .pass), (.gitHead, .working), (.gitHead, .pass)]) ∧
          untouched s0 s1 [.checkout, .install, .pack, .compare])) := by
  unfold registry
  dsimp only
  repeat' split
  · exact ⟨_, _, rfl, Or.inl ⟨by simp [updateProgress, h0],
      by simp [updateProgress], by simp [updateProgress, getStep, setStep],
      by simp [untouched, updateProgress, getStep, setStep]⟩⟩
  · exact ⟨_, _, rfl, Or.inl ⟨by simp [updateProgress, h0],
      by simp [updateProgress], by simp [updateProgress, getStep, setStep],
      by simp [untouched, updateProgress, getStep, setStep]⟩⟩
  · exact ⟨_, _, rfl, Or.inl ⟨by simp [updateProgress, h0],
      by simp [updateProgress], by simp [updateProgress, getStep, setStep],
      by simp [untouched, updateProgress, getStep, setStep]⟩⟩
  · exact ⟨_, _, rfl, Or.inr (Or.inl ⟨by simp [updateProgress, h0],
      by simp [updateProgress], by simp [updateProgress, getStep, setStep],
      by simp [untouched, updateProgress, getStep, setStep]⟩)⟩
  · exact ⟨_, _, rfl, Or.inr (Or.inl ⟨by simp [updateProgress, h0],
      by simp [updateProgress], by simp [updateProgress, getStep, setStep],
      by simp [untouched, updateProgress, getStep, setStep]⟩)⟩
  · exact ⟨_, _, rfl, Or.inr (Or.inl ⟨by simp [updateProgress, h0],
      by simp [updateProgress], by simp [updateProgress, getStep, setStep],
      by simp [untouched, updateProgress, getStep, setStep]⟩)⟩
  · exact ⟨_, _, rfl, Or.inr (Or.inr ⟨by simp [updateProgress, h0],
      Or.inr (by simp [updateProgress]),
      by simp [untouched, updateProgress, getStep, setStep]⟩)⟩
  · exact ⟨_, _, rfl, Or.inr (Or.inr ⟨by simp [updateProgress, h0],
      Or.inl (by simp [updateProgress]),
      by simp [untouched, updateProgress, getStep, setStep]⟩)⟩

lemma checkout_char (o : Oracle) (ru gh rv : Option String) (s0 : EngState)
    (h0 : s0.hasFailed = false) :
    ∃ r s1, checkout o ru gh rv s0 = Except.ok (r, s1) ∧
      ((s1.hasFailed = true ∧
          s1.trace = s0.trace ++ [(.checkout, .working), (.checkout, .fail)] ∧
          (getStep s1.progress .checkout).status = .fail ∧
          untouched s0 s1 [.registry, .repo, .gitHead, .install, .pack, .compare]) ∨
       (s1.hasFailed = false ∧
          s1.trace = s0.trace ++ [(.checkout, .working), (.checkout, .pass)] ∧
          untouched s0 s1 [.registry, .repo, .gitHead, .install, .pack, .compare])) := by
  unfold checkout checkoutFinish
  dsimp only
  repeat' split
  all_goals refine ⟨_, _, rfl, ?_⟩
  all_goals first
    | (refine Or.inr ⟨?_, ?_, ?_⟩ <;>
        simp [untouched, updateProgress, getStep, setStep, h0] <;> done)
    | (refine Or.inl ⟨?_, ?_, ?_, ?_⟩ <;>
        simp [untouched, updateProgress, getStep, setStep, h0] <;> done)

lemma pack_char (o : Oracle) (td : Option String) (s0 : EngState)
    (h0 : s0.hasFailed = false) :
    ∃ r s1, pack o td s0 = Except.ok (r, s1) ∧
      ((s1.hasFailed = true ∧
          s1.trace = s0.trace ++ [(.pack, .working), (.pack, .pending),
            (.install, .working), (.install, .fail)] ∧
          (getStep s1.progress .install).status = .fail ∧
          (getStep s1.progress .pack).status = .pending ∧
          untouched s0 s1 [.registry, .repo, .gitHead, .checkout, .compare]) ∨
       (s1.hasFailed = true ∧
          (s1.trace = s0.trace ++ [(.pack, .working), (.install, .skipped), (.pack, .fail)] ∨
           s1.trace = s0.trace ++ [(.pack, .working), (.pack, .pending), (.install, .working),
             (.install, .pass), (.pack, .working), (.pack, .fail)]) ∧
          (getStep s1.progress .pack).status = .fail ∧
          untouched s0 s1 [.registry, .repo, .gitHead, .checkout, .compare]) ∨
       (s1.hasFailed = false ∧
          (s1.trace = s0.trace ++ [(.pack, .working), (.install, .skipped), (.pack, .pass)] ∨
           s1.trace = s0.trace ++ [(.pack, .working), (.pack, .pending), (.install, .working),
             (.install, .pass), (.pack, .working), (.pack, .pass)]) ∧
          (∃ hsh, r.remoteShasum = some hsh) ∧
          untouched s0 s1 [.registry, .repo, .gitHead, .checkout, .compare])) := by
  unfold pack packParse
  dsimp only
  repeat' split
  all_goals refine ⟨_, _, rfl, ?_⟩
  all_goals first
    | (refine Or.inl ⟨?_, ?_, ?_, ?_, ?_⟩ <;>
        simp [untouched, updateProgress, getStep, setStep, h0] <;> done)
    | (refine Or.inr (Or.inl ⟨?_, Or.inl ?_, ?_, ?_⟩) <;>
        simp [untouched, updateProgress, getStep, setStep, h0] <;> done)
    | (refine Or.inr (Or.inl ⟨?_, Or.inr ?_, ?_, ?_⟩) <;>
        simp [untouched, updateProgress, getStep, setStep, h0] <;> done)
    | (refine Or.inr (Or.inr ⟨?_, Or.inl ?_, ?_, ?_⟩) <;>
        simp [untouched, updateProgress, getStep, setStep, h0] <;> done)
    | (refine Or.inr (Or.inr ⟨?_, Or.inr ?_, ?_, ?_⟩) <;>
        simp [untouched, updateProgress, getStep, setStep, h0] <;> done)

lemma compare_char (a b : Option String) (s0 : EngState)
    (h0 : s0.hasFailed = false) :
    (a = b → (compare a b s0).hasFailed = false ∧
       (compare a b s0).trace = s0.trace ++ [(.compare, .working), (.compare, .pass)]) ∧
    (a ≠ b → (compare a b s0).hasFailed = true ∧
       (compare a b s0).trace = s0.trace ++ [(.compare, .working), (.compare, .fail)] ∧
       (getStep (compare a b s0).progress .compare).status = .fail ∧
       (getStep (compare a b s0).progress .compare).message = some "Shasums do not match") ∧
    untouched s0 (compare a b s0) [.registry, .repo, .gitHead, .checkout, .install, .pack] := by
  unfold compare
  dsimp only
  refine ⟨?_, ?_, ?_⟩
  · intro hab
    split <;> simp_all [updateProgress, getStep, setStep]
  · intro hab
    split <;> simp_all [updateProgress, getStep, setStep]
  · split <;> simp [untouched, updateProgress, getStep, setStep]

/-! ## Lemmas for the shasum pattern -/

lemma hexChar_not_ws (c : Char) (h : isHexChar c = true) : isJsWs c = false := by
  simp only [isHexChar, Bool.or_eq_true, Bool.and_eq_true, decide_eq_true_eq] at h
  simp only [isJsWs, Bool.or_eq_false_iff, Bool.and_eq_false_iff,
    decide_eq_false_iff_not, not_le]
  omega

lemma stripLit_self (ps rest : List Char) : stripLit ps (ps ++ rest) = some rest := by
  induction ps with
  | nil => rfl
  | cons p ps ih => simp [stripLit, ih]

lemma stripLit_sound (ps : List Char) : ∀ cs r, stripLit ps cs = some r → cs = ps ++ r := by
  induction ps with
  | nil =>
    intro cs r h
    simp only [stripLit, Option.some.injEq] at h
    simp [h]
  | cons p ps ih =>
    intro cs r h
    cases cs with
    | nil => simp [stripLit] at h
    | cons c cs =>
      unfold stripLit at h
      split at h
      · rename_i hc
        rw [hc, ih cs r h]
        rfl
      · exact absurd h (by simp)

lemma takeCount_exact (p : Char → Bool) : ∀ (t rest : List Char), t.all p = true →
    takeCount p t.length (t ++ rest) = some (t, rest) := by
  intro t
  induction t with
  | nil => intro rest _; rfl
  | cons c t ih =>
    intro rest hall
    simp only [List.all_cons, Bool.and_eq_true] at hall
    simp [takeCount, hall.1, ih rest hall.2]

lemma takeCount_sound (p : Char → Bool) : ∀ n cs t r, takeCount p n cs = some (t, r) →
    cs = t ++ r ∧ t.length = n ∧ t.all p = true := by
  intro n
  induction n with
  | zero =>
    intro cs t r h
    simp only [takeCount, Option.some.injEq, Prod.mk.injEq] at h
    obtain ⟨h1, h2⟩ := h
    subst h1; subst h2
    exact ⟨rfl, rfl, rfl⟩
  | succ n ih =>
    intro cs t r h
    cases cs with
    | nil => simp [takeCount] at h
    | cons c cs =>
      unfold takeCount at h
      split at h
      · rename_i hpc
        cases htc : takeCount p n cs with
        | none => rw [htc] at h; simp at h
        | some pr =>
          rw [htc] at h
          simp only [Option.map, Option.some.injEq, Prod.mk.injEq] at h
          obtain ⟨h1, h2⟩ := h
          obtain ⟨hcs, hlen, hall⟩ := ih cs pr.1 pr.2 (by rw [htc])
          subst h1; subst h2
          refine ⟨by simp [hcs], by simp [hlen], by simp [hpc, hall]⟩
      · simp at h

lemma dropWhile_ws (hex rest : List Char) (hhex : hex.all isHexChar = true)
    (hne : hex ≠ []) :
    ∀ w, w.all isJsWs = true → (w ++ (hex ++ rest)).dropWhile isJsWs = hex ++ rest := by
  intro w
  induction w with
  | nil =>
    intro _
    cases hex with
    | nil => exact absurd rfl hne
    | cons h1 hx =>
      simp only [List.all_cons, Bool.and_eq_true] at hhex
      simp [List.dropWhile_cons, hexChar_not_ws h1 hhex.1]
  | cons c w2 ih =>
    intro hw
    simp only [List.all_cons, Bool.and_eq_true] at hw
    simp [List.dropWhile_cons, hw.1, ih hw.2]

lemma matchShasumAt_complete (w hex rest : List Char)
    (hwne : w ≠ []) (hw : w.all isJsWs = true)
    (hlen : hex.length = 40) (hhex : hex.all isHexChar = true) :
    matchShasumAt ("shasum:".data ++ (w ++ (hex ++ rest))) = some hex := by
  unfold matchShasumAt
  rw [stripLit_self]
  cases w with
  | nil => exact absurd rfl hwne
  | cons c w2 =>
    simp only [List.all_cons, Bool.and_eq_true] at hw
    simp only [List.cons_append]
    try dsimp only
    rw [if_pos hw.1]
    rw [dropWhile_ws hex rest hhex (by intro he; rw [he] at hlen; simp at hlen) w2 hw.2]
    rw [← hlen, takeCount_exact isHexChar hex rest hhex]

lemma matchShasumAt_sound (cs h : List Char) (hm : matchShasumAt cs = some h) :
    ∃ w rest, cs = "shasum:".data ++ w ++ h ++ rest ∧ w ≠ [] ∧
      w.all isJsWs = true ∧ h.length = 40 ∧ h.all isHexChar = true := by
  unfold matchShasumAt at hm
  cases hstrip : stripLit "shasum:".data cs with
  | none => rw [hstrip] at hm; simp at hm
  | some rest0 =>
    rw [hstrip] at hm
    have hcs := stripLit_sound _ _ _ hstrip
    cases rest0 with
    | nil => simp at hm
    | cons c rest2 =>
      dsimp only at hm
      split at hm
      · rename_i hwsc
        cases htc : takeCount isHexChar 40 (rest2.dropWhile isJsWs) with
        | none => rw [htc] at hm; simp at hm
        | some pr =>
          rw [htc] at hm
          simp only [Option.some.injEq] at hm
          obtain ⟨hsplit, hlen, hall⟩ := takeCount_sound _ _ _ _ _ htc
          refine ⟨c :: rest2.takeWhile isJsWs, pr.2, ?_, by simp, ?_, ?_, ?_⟩
          · rw [hcs]
            have h2 : rest2 = rest2.takeWhile isJsWs ++ (h ++ pr.2) := by
              conv_lhs => rw [← List.takeWhile_append_dropWhile (p := isJsWs) (l := rest2)]
              rw [hsplit, hm]
            conv_lhs => rw [h2]
            simp
          · simp [List.all_cons, hwsc]
          · rw [← hm]; exact hlen
          · rw [← hm]; exact hall
      · simp at hm

lemma scanShasum_cover (cs h : List Char) (hm : matchShasumAt cs = some h) :
    scanShasum cs = some h := by
  cases cs with
  | nil =>
    have hnone : matchShasumAt ([] : List Char) = none := by rfl
    rw [hnone] at hm
    exact Option.noConfusion hm
  | cons c cs =>
    unfold scanShasum
    rw [hm]

lemma scanShasum_sound (cs : List Char) : ∀ h, scanShasum cs = some h →
    ∃ pre w rest, cs = pre ++ ("shasum:".data ++ (w ++ (h ++ rest))) ∧ w ≠ [] ∧
      w.all isJsWs = true ∧ h.length = 40 ∧ h.all isHexChar = true := by
  induction cs with
  | nil => intro h hm; simp [scanShasum] at hm
  | cons c cs ih =>
    intro h hm
    unfold scanShasum at hm
    cases hma : matchShasumAt (c :: cs) with
    | some h0 =>
      rw [hma] at hm
      simp only [Option.some.injEq] at hm
      subst hm
      obtain ⟨w, rest, heq, hne, hw, hlen, hall⟩ := matchShasumAt_sound _ _ hma
      exact ⟨[], w, rest, by simpa using heq, hne, hw, hlen, hall⟩
    | none =>
      rw [hma] at hm
      obtain ⟨pre, w, rest, heq, hne, hw, hlen, hall⟩ := ih h hm
      exact ⟨c :: pre, w, rest, by simp [heq], hne, hw, hlen, hall⟩

lemma scanShasum_complete : ∀ (pre w hex post : List Char), w ≠ [] →
    w.all isJsWs = true → hex.length = 40 → hex.all isHexChar = true →
    ∃ h, scanShasum (pre ++ ("shasum:".data ++ (w ++ (hex ++ post)))) = some h := by
  intro pre
  induction pre with
  | nil =>
    intro w hex post hwne hw hlen hhex
    exact ⟨hex, by
      rw [List.nil_append]
      exact scanShasum_cover _ _ (matchShasumAt_complete w hex post hwne hw hlen hhex)⟩
  | cons c pre ih =>
    intro w hex post hwne hw hlen hhex
    rw [List.cons_append]
    cases hma : matchShasumAt (c :: (pre ++ ("shasum:".data ++ (w ++ (hex ++ post))))) with
    | some h0 =>
      exact ⟨h0, by unfold scanShasum; rw [hma]⟩
    | none =>
      obtain ⟨h, hsc⟩ := ih w hex post hwne hw hlen hhex
      exact ⟨h, by unfold scanShasum; rw [hma]; exact hsc⟩

/-! ## Claims -/

/-- Claim C2, counterexample: the claim that every step status only moves
forward (`Pending → Working → final`, never backward) is false on the code.
When the first `npm pack` attempt fails, `verifier.ts` line 252 sets the pack
step from `working` back to `pending` ("Waiting for dependencies"): on the run
driven by `oracleReset` the pack step goes `working` then `pending`, so the
trace is not monotone. -/
theorem c2_counterexample_pack_reset :
    traceMonoB (traceOf oracleReset "tbv" "" "/w") = false ∧
    stepStatuses .pack (traceOf oracleReset "tbv" "" "/w") =
      [Status.working, Status.pending] := by
  exact ⟨by decide, by decide⟩

/-- Claim C2 (amended): for every run and every step, the status moves only
forward along `Pending → Working → final`, except that the `pack` step may be
reset from `Working` back to `Pending` when the first pack attempt fails and
dependencies must be installed (`verifier.ts` line 252); no other backward
move ever occurs. -/
theorem c2_status_monotone_except_pack_reset (o : Oracle) (p v c : String) :
    traceMonoExceptPackB (traceOf o p v c) = true := by
  obtain ⟨r1, s1, e1, hc1⟩ := registry_char o p v (initState c) rfl
  unfold traceOf verify
  rw [e1]
  rcases hc1 with ⟨hf1, ht1, -, -⟩ | ⟨hf1, ht1, -, -⟩ | ⟨hf1, ht1, -⟩
  · simp only [hf1, if_true]
    try dsimp only
    rw [ht1]
    simp only [initState]
    decide
  · simp only [hf1, if_true]
    try dsimp only
    rw [ht1]
    simp only [initState]
    decide
  · simp only [hf1, if_false, Bool.false_eq_true]
    obtain ⟨r2, s2, e2, hc2⟩ := checkout_char o r1.repoUrl r1.gitHead r1.resolvedVersion s1 hf1
    rw [e2]
    rcases hc2 with ⟨hf2, ht2, -, -⟩ | ⟨hf2, ht2, -⟩
    · simp only [hf2, if_true]
      try dsimp only
      rcases ht1 with ht1 | ht1 <;>
        (rw [ht2, ht1]; simp only [initState, List.nil_append, List.append_assoc]; decide)
    · simp only [hf2, if_false, Bool.false_eq_true]
      obtain ⟨r3, s3, e3, hc3⟩ := pack_char o r2.tempDir s2 hf2
      rw [e3]
      rcases hc3 with ⟨hf3, ht3, -, -, -⟩ | ⟨hf3, ht3, -, -⟩ | ⟨hf3, ht3, -, -⟩
      · simp only [hf3, if_true]
        try dsimp only
        rcases ht1 with ht1 | ht1 <;>
          (rw [ht3, ht2, ht1]; simp only [initState, List.nil_append, List.append_assoc]; decide)
      · simp only [hf3, if_true]
        try dsimp only
        rcases ht1 with ht1 | ht1 <;> rcases ht3 with ht3 | ht3 <;>
          (rw [ht3, ht2, ht1]; simp only [initState, List.nil_append, List.append_assoc]; decide)
      · simp only [hf3, if_false, Bool.false_eq_true]
        obtain ⟨hcEq, hcNe, -⟩ := compare_char r1.shasum r3.remoteShasum s3 hf3
        by_cases hab : r1.shasum = r3.remoteShasum
        · obtain ⟨hf4, ht4⟩ := hcEq hab
          simp only [hf4, if_false, Bool.false_eq_true]
          try dsimp only
          rcases ht1 with ht1 | ht1 <;> rcases ht3 with ht3 | ht3 <;>
            (rw [ht4, ht3, ht2, ht1]; simp only [initState, List.nil_append, List.append_assoc]; decide)
        · obtain ⟨hf4, ht4, -, -⟩ := hcNe hab
          simp only [hf4, if_true]
          try dsimp only
          rcases ht1 with ht1 | ht1 <;> rcases ht3 with ht3 | ht3 <;>
            (rw [ht4, ht3, ht2, ht1]; simp only [initState, List.nil_append, List.append_assoc]; decide)

/-- Claim C3: once any step is set to `Fail`, the run halts — the fail event
is the last status update of the whole run, every step ordered after the
failing one still has status `Pending` in the final state, and `verify`
returns `false`. -/
theorem c3_fail_halts_pipeline (o : Oracle) (p v c : String) (b : Bool)
    (s : EngState) (k : StepId)
    (hv : verify o p v c = Except.ok (b, s))
    (hk : (k, Status.fail) ∈ s.trace) :
    b = false ∧ s.trace.getLast? = some (k, Status.fail) ∧
      ∀ k', stepIdx k < stepIdx k' → (getStep s.progress k').status = Status.pending := by
  obtain ⟨r1, s1, e1, hc1⟩ := registry_char o p v (initState c) rfl
  unfold verify at hv
  rw [e1] at hv
  rcases hc1 with ⟨hf1, ht1, hst1, hu1⟩ | ⟨hf1, ht1, hst1, hu1⟩ | ⟨hf1, ht1, hu1⟩
  · simp only [hf1, if_true, Except.ok.injEq, Prod.mk.injEq] at hv
    obtain ⟨hb, hs⟩ := hv
    subst hs; subst hb
    rw [ht1] at hk
    simp only [initState, List.nil_append] at hk
    simp at hk
    subst hk
    refine ⟨rfl, ?_, ?_⟩
    · rw [ht1]; simp only [initState]; decide
    · intro k' hlt
      rcases k' <;> first
        | exact absurd hlt (by decide)
        | (rw [hu1 _ (by decide)]; rfl)
  · simp only [hf1, if_true, Except.ok.injEq, Prod.mk.injEq] at hv
    obtain ⟨hb, hs⟩ := hv
    subst hs; subst hb
    rw [ht1] at hk
    simp only [initState, List.nil_append] at hk
    simp at hk
    subst hk
    refine ⟨rfl, ?_, ?_⟩
    · rw [ht1]; simp only [initState]; decide
    · intro k' hlt
      rcases k' <;> first
        | exact absurd hlt (by decide)
        | (rw [hu1 _ (by decide)]; rfl)
  · simp only [hf1, if_false, Bool.false_eq_true] at hv
    obtain ⟨r2, s2, e2, hc2⟩ := checkout_char o r1.repoUrl r1.gitHead r1.resolvedVersion s1 hf1
    rw [e2] at hv
    rcases hc2 with ⟨hf2, ht2, hst2, hu2⟩ | ⟨hf2, ht2, hu2⟩
    · simp only [hf2, if_true, Except.ok.injEq, Prod.mk.injEq] at hv
      obtain ⟨hb, hs⟩ := hv
      subst hs; subst hb
      rw [ht2] at hk
      rcases ht1 with ht1 | ht1 <;>
        (rw [ht1] at hk
         simp only [initState, List.nil_append, List.append_assoc] at hk
         simp at hk
         subst hk
         refine ⟨rfl, ?_, ?_⟩
         · rw [ht2, ht1]; simp only [initState]; decide
         · intro k' hlt
           rcases k' <;> first
             | exact absurd hlt (by decide)
             | (rw [hu2 _ (by decide), hu1 _ (by decide)]; rfl))
    · simp only [hf2, if_false, Bool.false_eq_true] at hv
      obtain ⟨r3, s3, e3, hc3⟩ := pack_char o r2.tempDir s2 hf2
      rw [e3] at hv
      rcases hc3 with ⟨hf3, ht3, hsti3, hstp3, hu3⟩ | ⟨hf3, ht3, hst3, hu3⟩ | ⟨hf3, ht3, -, hu3⟩
      · simp only [hf3, if_true, Except.ok.injEq, Prod.mk.injEq] at hv
        obtain ⟨hb, hs⟩ := hv
        subst hs; subst hb
        rw [ht3, ht2] at hk
        rcases ht1 with ht1 | ht1 <;>
          (rw [ht1] at hk
           simp only [initState, List.nil_append, List.append_assoc] at hk
           simp at hk
           subst hk
           refine ⟨rfl, ?_, ?_⟩
           · rw [ht3, ht2, ht1]; simp only [initState]; decide
           · intro k' hlt
             rcases k' <;> first
               | exact absurd hlt (by decide)
               | exact hstp3
               | (rw [hu3 _ (by decide), hu2 _ (by decide), hu1 _ (by decide)]; rfl))
      · simp only [hf3, if_true, Except.ok.injEq, Prod.mk.injEq] at hv
        obtain ⟨hb, hs⟩ := hv
        subst hs; subst hb
        rcases ht1 with ht1 | ht1 <;> rcases ht3 with ht3 | ht3 <;>
          (rw [ht3, ht2, ht1] at hk
           simp only [initState, List.nil_append, List.append_assoc] at hk
           simp at hk
           subst hk
           refine ⟨rfl, ?_, ?_⟩
           · rw [ht3, ht2, ht1]; simp only [initState]; decide
           · intro k' hlt
             rcases k' <;> first
               | exact absurd hlt (by decide)
               | (rw [hu3 _ (by decide), hu2 _ (by decide), hu1 _ (by decide)]; rfl))
      · simp only [hf3, if_false, Bool.false_eq_true] at hv
        obtain ⟨hcEq, hcNe, hu4⟩ := compare_char r1.shasum r3.remoteShasum s3 hf3
        by_cases hab : r1.shasum = r3.remoteShasum
        · obtain ⟨hf4, ht4⟩ := hcEq hab
          simp only [hf4, if_false, Bool.false_eq_true, Except.ok.injEq, Prod.mk.injEq] at hv
          obtain ⟨hb, hs⟩ := hv
          subst hs; subst hb
          rcases ht1 with ht1 | ht1 <;> rcases ht3 with ht3 | ht3 <;>
            (rw [ht4, ht3, ht2, ht1] at hk
             simp only [initState, List.nil_append, List.append_assoc] at hk
             simp at hk)
        · obtain ⟨hf4, ht4, hst4, hmsg4⟩ := hcNe hab
          simp only [hf4, if_true, Except.ok.injEq, Prod.mk.injEq] at hv
          obtain ⟨hb, hs⟩ := hv
          subst hs; subst hb
          rcases ht1 with ht1 | ht1 <;> rcases ht3 with ht3 | ht3 <;>
            (rw [ht4, ht3, ht2, ht1] at hk
             simp only [initState, List.nil_append, List.append_assoc] at hk
             simp at hk
             subst hk
             refine ⟨rfl, ?_, ?_⟩
             · rw [ht4, ht3, ht2, ht1]; simp only [initState]; decide
             · intro k' hlt
               rcases k' <;> exact absurd hlt (by decide))

/-- Witness for C3: on the run where the registry GET fails, the registry
step fails, that fail event is the last of the trace, every later step is
still pending, and the run returns `false`. -/
theorem c3_fail_halts_pipeline_witness :
    verify oracleHttpFail "tbv" "" "/w" =
      Except.ok (false, stateOf oracleHttpFail "tbv" "" "/w") ∧
    (StepId.registry, Status.fail) ∈ (stateOf oracleHttpFail "tbv" "" "/w").trace ∧
    (false = false ∧
     (stateOf oracleHttpFail "tbv" "" "/w").trace.getLast? =
       some (StepId.registry, Status.fail) ∧
     ∀ k', stepIdx StepId.registry < stepIdx k' →
       (getStep (stateOf oracleHttpFail "tbv" "" "/w").progress k').status =
         Status.pending) :=
  ⟨by rfl, by decide,
   c3_fail_halts_pipeline oracleHttpFail "tbv" "" "/w" false _ .registry
     (by rfl) (by decide)⟩

/-- Claim C4: for every behaviour of the external collaborators (HTTP,
subprocess, temp-directory allocation — success or failure), `verify` never
raises: it always resolves on the `.ok` channel with a boolean. -/
theorem c4_verify_never_raises (o : Oracle) (p v c : String) :
    ∃ b s, verify o p v c = Except.ok (b, s) := by
  obtain ⟨r1, s1, e1, -⟩ := registry_char o p v (initState c) rfl
  unfold verify
  rw [e1]
  rcases hf1 : s1.hasFailed with _ | _
  · obtain ⟨r2, s2, e2, -⟩ := checkout_char o r1.repoUrl r1.gitHead r1.resolvedVersion s1 hf1
    simp only [hf1, if_false, Bool.false_eq_true]
    rw [e2]
    rcases hf2 : s2.hasFailed with _ | _
    · obtain ⟨r3, s3, e3, -⟩ := pack_char o r2.tempDir s2 hf2
      simp only [hf2, if_false, Bool.false_eq_true]
      rw [e3]
      rcases hf3 : s3.hasFailed with _ | _
      · simp only [hf3, if_false, Bool.false_eq_true]
        rcases hf4 : (compare r1.shasum r3.remoteShasum s3).hasFailed with _ | _ <;>
          simp [hf4]
      · simp [hf3]
    · simp [hf2]
  · simp [hf1]

/-- Claim C5: on every exit path of the checkout and pack phases the working
directory current at phase entry is restored before the phase returns. -/
theorem c5_cwd_restored_checkout_and_pack :
    (∀ (o : Oracle) (ru gh rv : Option String) (s0 : EngState) res s1,
      checkout o ru gh rv s0 = Except.ok (res, s1) → s1.cwd = s0.cwd) ∧
    (∀ (o : Oracle) (td : Option String) (s0 : EngState) res s1,
      pack o td s0 = Except.ok (res, s1) → s1.cwd = s0.cwd) := by
  constructor
  · intro o ru gh rv s0 res s1 h
    unfold checkout checkoutFinish at h
    repeat' split at h
    all_goals
      simp only [Except.ok.injEq, Prod.mk.injEq] at h
    all_goals
      obtain ⟨h1, h2⟩ := h
    all_goals subst h2
    all_goals rfl
  · intro o td s0 res s1 h
    unfold pack packParse at h
    repeat' split at h
    all_goals
      simp only [Except.ok.injEq, Prod.mk.injEq] at h
    all_goals
      obtain ⟨h1, h2⟩ := h
    all_goals subst h2
    all_goals rfl

/-- Witness for C5: a concrete checkout run and a concrete pack run both end
with the working directory they started with. -/
theorem c5_cwd_restored_witness :
    (phaseState (checkout oracleHappy (some "https://x/y.git") none (some "1.2.3")
        (initState "/w")) (initState "/w")).cwd = (initState "/w").cwd ∧
    (phaseState (pack oracleHappy (some "/tmp/t1") (initState "/w"))
        (initState "/w")).cwd = (initState "/w").cwd :=
  ⟨c5_cwd_restored_checkout_and_pack.1 oracleHappy (some "https://x/y.git") none
      (some "1.2.3") (initState "/w")
      (phaseRes (checkout oracleHappy (some "https://x/y.git") none (some "1.2.3")
        (initState "/w")) ⟨none, none⟩)
      (phaseState (checkout oracleHappy (some "https://x/y.git") none (some "1.2.3")
        (initState "/w")) (initState "/w")) (by rfl),
   c5_cwd_restored_checkout_and_pack.2 oracleHappy (some "/tmp/t1")
      (initState "/w")
      (phaseRes (pack oracleHappy (some "/tmp/t1") (initState "/w")) ⟨none⟩)
      (phaseState (pack oracleHappy (some "/tmp/t1") (initState "/w"))
        (initState "/w")) (by rfl)⟩

/-- Claim C1 (code bug): the claim — and the spec — say the registry phase
returns the `gitHead` found in the metadata and the checkout phase then
fetches that commit.  The code does not: the return at `verifier.ts` line 133
is `{ resolvedVersion, repoUrl, shasum }` with no `gitHead` field, even though
`verify` destructures `gitHead` from it (line 9) and `checkout` implements a
commit-fetch branch (lines 183–196).  So the registry result's `gitHead` is
`none` on every run, and on the concrete run `oracleHappy` — whose metadata
carries `gitHead = "abc1234def0"` — the pipeline fetches `tags/v1.2.3` and
never issues the commit fetch. -/
theorem c1_registry_drops_githead :
    (∀ (o : Oracle) (p v : String) (s0 : EngState) r s1,
      registry o p v s0 = Except.ok (r, s1) → r.gitHead = none) ∧
    cmdsOf oracleHappy "tbv" "" "/w" =
      ["git init", "git remote add origin \"https://x/y.git\"",
       "git fetch --depth 1 origin tags/v1.2.3", "git checkout FETCH_HEAD",
       "npm pack --dry-run"] ∧
    "git fetch --depth 1 origin abc1234def0" ∉ cmdsOf oracleHappy "tbv" "" "/w" := by
  refine ⟨?_, by decide, by decide⟩
  intro o p v s0 r s1 h
  unfold registry at h
  dsimp only at h
  repeat' split at h
  all_goals
    simp only [Except.ok.injEq, Prod.mk.injEq] at h
  all_goals
    obtain ⟨h1, h2⟩ := h
  all_goals subst h1
  all_goals rfl

/-- Witness for C1: the registry phase of the `oracleHappy` run — whose
metadata does contain a `gitHead` — returns a record whose `gitHead` is
`none`. -/
theorem c1_registry_drops_githead_witness :
    (phaseRes (registry oracleHappy "tbv" "" (initState "/w"))
      ⟨none, none, none, none⟩).gitHead = none :=
  c1_registry_drops_githead.1 oracleHappy "tbv" "" (initState "/w")
    (phaseRes (registry oracleHappy "tbv" "" (initState "/w")) ⟨none, none, none, none⟩)
    (phaseState (registry oracleHappy "tbv" "" (initState "/w")) (initState "/w"))
    (by rfl)

/-- Claim C9: repository-URL normalization strips a leading `git+` prefix when
present, returns any URL that does not start with `git+` unchanged, and on the
spec's example maps `git+https://x/y.git` to `https://x/y.git` (hence
normalizing an already-normalized URL is the identity). -/
theorem c9_normalize_repo_url :
    (∀ u : String, strStartsWith u "git+" = false → normalizeRepoUrl u = u) ∧
    (∀ u : String, strStartsWith u "git+" = true →
      normalizeRepoUrl u = (⟨u.data.drop 4⟩ : String)) ∧
    normalizeRepoUrl "git+https://x/y.git" = "https://x/y.git" ∧
    normalizeRepoUrl (normalizeRepoUrl "git+https://x/y.git") =
      normalizeRepoUrl "git+https://x/y.git" := by
  refine ⟨?_, ?_, by decide, by decide⟩ <;> intro u h <;> simp [normalizeRepoUrl, h]

/-- Witness for C9: the two implications applied at concrete URLs. -/
theorem c9_normalize_repo_url_witness :
    normalizeRepoUrl "https://a/b.git" = "https://a/b.git" ∧
    normalizeRepoUrl "git+ssh://h/r.git" = (⟨"git+ssh://h/r.git".data.drop 4⟩ : String) :=
  ⟨c9_normalize_repo_url.1 "https://a/b.git" (by decide),
   c9_normalize_repo_url.2.1 "git+ssh://h/r.git" (by decide)⟩

/-- Claim C6: when `gitHead` is absent, checkout first tries
`git fetch --depth 1 origin tags/v{resolvedVersion}` (and on success sets
`refspec = "tags/v{resolvedVersion}"` without ever attempting the other tag);
only if that fails does it try `git fetch --depth 1 origin
tags/{resolvedVersion}` (setting `refspec = "tags/{resolvedVersion}"`);
if both fail the checkout step is marked `Fail` with a message naming both
attempted refs and the phase returns `{tempDir}`. -/
theorem c6_tag_fallback_order (o : Oracle) (ru gh rv : Option String)
    (td : String) (s0 : EngState)
    (hg : jsTruthy gh = false)
    (ht : o.createTempResult = some td)
    (hi : o.gitInitOk = true)
    (hr : o.gitRemoteAddOk = true) :
    (o.fetchVTagOk = true →
      ∃ res s1, checkout o ru gh rv s0 = Except.ok (res, s1) ∧
        res.refspec = some ("tags/v" ++ showJs rv) ∧
        s1.cmds = s0.cmds ++ ["git init",
          "git remote add origin \"" ++ showJs ru ++ "\"",
          "git fetch --depth 1 origin tags/v" ++ showJs rv,
          "git checkout FETCH_HEAD"]) ∧
    (o.fetchVTagOk = false → o.fetchTagOk = true →
      ∃ res s1, checkout o ru gh rv s0 = Except.ok (res, s1) ∧
        res.refspec = some ("tags/" ++ showJs rv) ∧
        s1.cmds = s0.cmds ++ ["git init",
          "git remote add origin \"" ++ showJs ru ++ "\"",
          "git fetch --depth 1 origin tags/v" ++ showJs rv,
          "git fetch --depth 1 origin tags/" ++ showJs rv,
          "git checkout FETCH_HEAD"]) ∧
    (o.fetchVTagOk = false → o.fetchTagOk = false →
      ∃ s1, checkout o ru gh rv s0 =
          Except.ok ({ tempDir := some td, refspec := none }, s1) ∧
        (getStep s1.progress .checkout).status = .fail ∧
        (getStep s1.progress .checkout).message =
          some ("Unable fetch tag from remote (tags/" ++ showJs rv ++
            " or tags/v" ++ showJs rv ++ ")") ∧
        s1.cmds = s0.cmds ++ ["git init",
          "git remote add origin \"" ++ showJs ru ++ "\"",
          "git fetch --depth 1 origin tags/v" ++ showJs rv,
          "git fetch --depth 1 origin tags/" ++ showJs rv]) := by
  refine ⟨?_, ?_, ?_⟩
  · intro hv
    unfold checkout checkoutFinish
    rw [ht]
    dsimp only
    simp only [hi, hr, hg, hv]
    rcases hh : o.checkoutHeadOk with _ | _ <;> (try simp only [hh]) <;>
      (refine ⟨_, _, rfl, ?_, ?_⟩ <;>
        first
          | rfl
          | simp [updateProgress, List.append_assoc])
  · intro hv htg
    unfold checkout checkoutFinish
    rw [ht]
    dsimp only
    simp only [hi, hr, hg, hv, htg]
    rcases hh : o.checkoutHeadOk with _ | _ <;> (try simp only [hh]) <;>
      (refine ⟨_, _, rfl, ?_, ?_⟩ <;>
        first
          | rfl
          | simp [updateProgress, List.append_assoc])
  · intro hv htg
    unfold checkout checkoutFinish
    rw [ht]
    dsimp only
    simp only [hi, hr, hg, hv, htg]
    refine ⟨_, rfl, ?_, ?_, ?_⟩ <;>
      simp [updateProgress, getStep, setStep, List.append_assoc]

/-- Witness for C6: the three fetch outcomes at concrete oracles — `tags/v`
succeeds; `tags/v` fails then `tags/…` succeeds; both fail. -/
theorem c6_tag_fallback_order_witness :
    (∃ res s1, checkout oracleHappy (some "https://x/y.git") none (some "1.2.3")
        (initState "/w") = Except.ok (res, s1) ∧
      res.refspec = some ("tags/v" ++ showJs (some "1.2.3")) ∧
      s1.cmds = (initState "/w").cmds ++ ["git init",
        "git remote add origin \"" ++ showJs (some "https://x/y.git") ++ "\"",
        "git fetch --depth 1 origin tags/v" ++ showJs (some "1.2.3"),
        "git checkout FETCH_HEAD"]) ∧
    (∃ res s1, checkout oracleTagFallback (some "https://x/y.git") none (some "1.2.3")
        (initState "/w") = Except.ok (res, s1) ∧
      res.refspec = some ("tags/" ++ showJs (some "1.2.3")) ∧
      s1.cmds = (initState "/w").cmds ++ ["git init",
        "git remote add origin \"" ++ showJs (some "https://x/y.git") ++ "\"",
        "git fetch --depth 1 origin tags/v" ++ showJs (some "1.2.3"),
        "git fetch --depth 1 origin tags/" ++ showJs (some "1.2.3"),
        "git checkout FETCH_HEAD"]) ∧
    (∃ s1, checkout oracleNoTags (some "https://x/y.git") none (some "1.2.3")
        (initState "/w") = Except.ok ({ tempDir := some "/tmp/t1", refspec := none }, s1) ∧
      (getStep s1.progress .checkout).status = .fail ∧
      (getStep s1.progress .checkout).message =
        some ("Unable fetch tag from remote (tags/" ++ showJs (some "1.2.3") ++
          " or tags/v" ++ showJs (some "1.2.3") ++ ")") ∧
      s1.cmds = (initState "/w").cmds ++ ["git init",
        "git remote add origin \"" ++ showJs (some "https://x/y.git") ++ "\"",
        "git fetch --depth 1 origin tags/v" ++ showJs (some "1.2.3"),
        "git fetch --depth 1 origin tags/" ++ showJs (some "1.2.3")]) :=
  ⟨(c6_tag_fallback_order oracleHappy (some "https://x/y.git") none (some "1.2.3")
      "/tmp/t1" (initState "/w") rfl rfl rfl rfl).1 rfl,
   (c6_tag_fallback_order oracleTagFallback (some "https://x/y.git") none (some "1.2.3")
      "/tmp/t1" (initState "/w") rfl rfl rfl rfl).2.1 rfl rfl,
   (c6_tag_fallback_order oracleNoTags (some "https://x/y.git") none (some "1.2.3")
      "/tmp/t1" (initState "/w") rfl rfl rfl rfl).2.2 rfl rfl⟩

/-- Claim C8: when the version metadata resolves (repository present, of git
type, with a truthy URL), a missing `gitHead` sets the gitHead step to `Warn`
and then to `Pass`, does not set the fail flag, and the pipeline still
proceeds to the checkout phase; a present `gitHead` sets the step directly to
`Pass` with no `Warn` event. -/
theorem c8_missing_githead_warns_then_passes
    (o : Oracle) (p v c : String) (info : RegistryInfo) (vi : VersionInfo)
    (repo : Repository)
    (hw : o.httpGet = some info)
    (hrv : resolvedVersionOf info v ≠ "")
    (hvi : versionInfoOf info (resolvedVersionOf info v) = some vi)
    (hrepo : vi.repository = some repo)
    (hty : repo.rtype = some "git")
    (hurl : jsTruthy repo.url = true) :
    (jsTruthy vi.gitHead = false →
      (∃ r s1, registry o p v (initState c) = Except.ok (r, s1) ∧
        s1.hasFailed = false ∧
        s1.trace = [(.registry, .working), (.registry, .pass), (.repo, .working),
          (.repo, .pass), (.gitHead, .working), (.gitHead, .warn), (.gitHead, .pass)] ∧
        (getStep s1.progress .gitHead).status = .pass) ∧
      (StepId.checkout, Status.working) ∈ traceOf o p v c) ∧
    (jsTruthy vi.gitHead = true →
      ∃ r s1, registry o p v (initState c) = Except.ok (r, s1) ∧
        s1.hasFailed = false ∧
        s1.trace = [(.registry, .working), (.registry, .pass), (.repo, .working),
          (.repo, .pass), (.gitHead, .working), (.gitHead, .pass)] ∧
        (getStep s1.progress .gitHead).status = .pass) := by
  constructor
  · intro hgh
    have hA : ∃ r s1, registry o p v (initState c) = Except.ok (r, s1) ∧
        s1.hasFailed = false ∧
        s1.trace = [(.registry, .working), (.registry, .pass), (.repo, .working),
          (.repo, .pass), (.gitHead, .working), (.gitHead, .warn), (.gitHead, .pass)] ∧
        (getStep s1.progress .gitHead).status = .pass := by
      unfold registry
      rw [hw]
      dsimp only
      rw [if_neg hrv, hvi]
      dsimp only
      rw [hrepo]
      dsimp only
      simp only [hty, hurl, hgh]
      simp only [ne_eq, not_true_eq_false, if_false, Bool.true_eq_false,
        Bool.false_eq_true, if_true]
      refine ⟨_, _, rfl, ?_, ?_, ?_⟩ <;>
        simp [updateProgress, initState, getStep, setStep]
    refine ⟨hA, ?_⟩
    obtain ⟨r1, s1, e1, hf1, ht1, -⟩ := hA
    unfold traceOf verify
    rw [e1]
    simp only [hf1, if_false, Bool.false_eq_true]
    obtain ⟨r2, s2, e2, hc2⟩ := checkout_char o r1.repoUrl r1.gitHead r1.resolvedVersion s1 hf1
    rw [e2]
    rcases hc2 with ⟨hf2, ht2, -, -⟩ | ⟨hf2, ht2, -⟩
    · simp only [hf2, if_true]
      try dsimp only
      rw [ht2, ht1]
      decide
    · simp only [hf2, if_false, Bool.false_eq_true]
      obtain ⟨r3, s3, e3, hc3⟩ := pack_char o r2.tempDir s2 hf2
      rw [e3]
      rcases hc3 with ⟨hf3, ht3, -, -, -⟩ | ⟨hf3, ht3, -, -⟩ | ⟨hf3, ht3, -, -⟩
      · simp only [hf3, if_true]
        try dsimp only
        rw [ht3, ht2, ht1]
        decide
      · simp only [hf3, if_true]
        try dsimp only
        rcases ht3 with ht3 | ht3 <;> (rw [ht3, ht2, ht1]; decide)
      · simp only [hf3, if_false, Bool.false_eq_true]
        obtain ⟨hcEq, hcNe, -⟩ := compare_char r1.shasum r3.remoteShasum s3 hf3
        by_cases hab : r1.shasum = r3.remoteShasum
        · obtain ⟨hf4, ht4⟩ := hcEq hab
          simp only [hf4, if_false, Bool.false_eq_true]
          try dsimp only
          rcases ht3 with ht3 | ht3 <;> (rw [ht4, ht3, ht2, ht1]; decide)
        · obtain ⟨hf4, ht4, -, -⟩ := hcNe hab
          simp only [hf4, if_true]
          try dsimp only
          rcases ht3 with ht3 | ht3 <;> (rw [ht4, ht3, ht2, ht1]; decide)
  · intro hgh
    unfold registry
    rw [hw]
    dsimp only
    rw [if_neg hrv, hvi]
    dsimp only
    rw [hrepo]
    dsimp only
    simp only [hty, hurl, hgh]
    simp only [ne_eq, not_true_eq_false, if_false, Bool.true_eq_false,
      Bool.false_eq_true, if_true]
    refine ⟨_, _, rfl, ?_, ?_, ?_⟩ <;>
      simp [updateProgress, initState, getStep, setStep]

/-- Witness for C8: the missing-`gitHead` run (`oracleNoGitHead`) warns then
passes and reaches checkout; the present-`gitHead` run (`oracleHappy`) passes
without a warn event. -/
theorem c8_missing_githead_warns_then_passes_witness :
    ((∃ r s1, registry oracleNoGitHead "tbv" "" (initState "/w") = Except.ok (r, s1) ∧
        s1.hasFailed = false ∧
        s1.trace = [(.registry, .working), (.registry, .pass), (.repo, .working),
          (.repo, .pass), (.gitHead, .working), (.gitHead, .warn), (.gitHead, .pass)] ∧
        (getStep s1.progress .gitHead).status = .pass) ∧
      (StepId.checkout, Status.working) ∈ traceOf oracleNoGitHead "tbv" "" "/w") ∧
    (∃ r s1, registry oracleHappy "tbv" "" (initState "/w") = Except.ok (r, s1) ∧
        s1.hasFailed = false ∧
        s1.trace = [(.registry, .working), (.registry, .pass), (.repo, .working),
          (.repo, .pass), (.gitHead, .working), (.gitHead, .pass)] ∧
        (getStep s1.progress .gitHead).status = .pass) :=
  ⟨(c8_missing_githead_warns_then_passes oracleNoGitHead "tbv" "" "/w"
      infoNoGitHead
      ⟨some ⟨some "git", some "git+https://x/y.git"⟩, none, none, some ⟨some hexA⟩⟩
      ⟨some "git", some "git+https://x/y.git"⟩
      rfl (by decide) (by decide) (by decide) (by decide) (by decide)).1 (by decide),
   (c8_missing_githead_warns_then_passes oracleHappy "tbv" "" "/w"
      infoFull
      ⟨some ⟨some "git", some "git+https://x/y.git"⟩, some "abc1234def0", none, some ⟨some hexA⟩⟩
      ⟨some "git", some "git+https://x/y.git"⟩
      rfl (by decide) (by decide) (by decide) (by decide) (by decide)).2 (by decide)⟩

lemma registry_shasum (o : Oracle) (p v : String) (s0 : EngState) (r : RegRes)
    (s1 : EngState) (info : RegistryInfo)
    (hreg : registry o p v s0 = Except.ok (r, s1))
    (hw : o.httpGet = some info) :
    r.shasum = none ∨
      ∃ vi, versionInfoOf info (resolvedVersionOf info v) = some vi ∧
        r.shasum = shasumOf vi := by
  unfold registry at hreg
  rw [hw] at hreg
  dsimp only at hreg
  repeat' split at hreg
  all_goals simp only [Except.ok.injEq, Prod.mk.injEq] at hreg
  all_goals obtain ⟨h1, h2⟩ := hreg
  all_goals subst h1
  all_goals first
    | exact Or.inl rfl
    | exact Or.inr ⟨_, by assumption, rfl⟩

/-- Claim C10: when the registry metadata for the resolved version has neither
`_shasum` nor `dist.shasum`, the run can never return `true` (and never
raises): whenever the compare step runs at all it is marked
`Fail("Shasums do not match")`, and the result is `false`. -/
theorem c10_missing_registry_digest_never_true
    (o : Oracle) (p v c : String) (info : RegistryInfo) (vi : VersionInfo)
    (hw : o.httpGet = some info)
    (hvi : versionInfoOf info (resolvedVersionOf info v) = some vi)
    (hund : vi.underscoreShasum = none)
    (hdist : vi.dist.bind Dist.shasum = none) :
    boolOf o p v c = false ∧
    ((getStep (stateOf o p v c).progress .compare).status ≠ Status.pending →
      (getStep (stateOf o p v c).progress .compare).status = Status.fail ∧
      (getStep (stateOf o p v c).progress .compare).message =
        some "Shasums do not match") := by
  have hsha : shasumOf vi = none := by
    unfold shasumOf jsOrStr
    rw [hund]
    cases hdd : vi.dist <;> simp_all [Option.bind]
  obtain ⟨r1, s1, e1, hc1⟩ := registry_char o p v (initState c) rfl
  have hnone : r1.shasum = none := by
    rcases registry_shasum o p v (initState c) r1 s1 info e1 hw with h | ⟨vi', hvi', h⟩
    · exact h
    · rw [hvi] at hvi'
      injection hvi' with hvv
      rw [h, ← hvv, hsha]
  unfold boolOf stateOf phaseRes phaseState verify
  rw [e1]
  rcases hc1 with ⟨hf1, ht1, -, hu1⟩ | ⟨hf1, ht1, -, hu1⟩ | ⟨hf1, ht1, hu1⟩
  · simp only [hf1, if_true]
    try dsimp only
    refine ⟨by trivial, fun hne => absurd ?_ hne⟩
    rw [hu1 _ (by decide)]
    rfl
  · simp only [hf1, if_true]
    try dsimp only
    refine ⟨by trivial, fun hne => absurd ?_ hne⟩
    rw [hu1 _ (by decide)]
    rfl
  · simp only [hf1, if_false, Bool.false_eq_true]
    obtain ⟨r2, s2, e2, hc2⟩ := checkout_char o r1.repoUrl r1.gitHead r1.resolvedVersion s1 hf1
    rw [e2]
    rcases hc2 with ⟨hf2, ht2, -, hu2⟩ | ⟨hf2, ht2, hu2⟩
    · simp only [hf2, if_true]
      try dsimp only
      refine ⟨by trivial, fun hne => absurd ?_ hne⟩
      rw [hu2 _ (by decide), hu1 _ (by decide)]
      rfl
    · simp only [hf2, if_false, Bool.false_eq_true]
      obtain ⟨r3, s3, e3, hc3⟩ := pack_char o r2.tempDir s2 hf2
      rw [e3]
      rcases hc3 with ⟨hf3, ht3, -, -, hu3⟩ | ⟨hf3, ht3, -, hu3⟩ | ⟨hf3, ht3, ⟨hsh, hrsh⟩, hu3⟩
      · simp only [hf3, if_true]
        try dsimp only
        refine ⟨by trivial, fun hne => absurd ?_ hne⟩
        rw [hu3 _ (by decide), hu2 _ (by decide), hu1 _ (by decide)]
        rfl
      · simp only [hf3, if_true]
        try dsimp only
        refine ⟨by trivial, fun hne => absurd ?_ hne⟩
        rw [hu3 _ (by decide), hu2 _ (by decide), hu1 _ (by decide)]
        rfl
      · simp only [hf3, if_false, Bool.false_eq_true]
        obtain ⟨-, hcNe, -⟩ := compare_char r1.shasum r3.remoteShasum s3 hf3
        have hne : r1.shasum ≠ r3.remoteShasum := by
          rw [hnone, hrsh]
          simp
        obtain ⟨hf4, ht4, hst4, hmsg4⟩ := hcNe hne
        simp only [hf4, if_true]
        try dsimp only
        exact ⟨by trivial, fun _ => ⟨hst4, hmsg4⟩⟩

/-- Witness for C10: on the concrete run `oracleNoShasum` — every collaborator
succeeds but the metadata carries no digest — the result is `false` and the
compare step failed with "Shasums do not match". -/
theorem c10_missing_registry_digest_never_true_witness :
    boolOf oracleNoShasum "tbv" "" "/w" = false ∧
    ((getStep (stateOf oracleNoShasum "tbv" "" "/w").progress .compare).status ≠
        Status.pending →
      (getStep (stateOf oracleNoShasum "tbv" "" "/w").progress .compare).status =
        Status.fail ∧
      (getStep (stateOf oracleNoShasum "tbv" "" "/w").progress .compare).message =
        some "Shasums do not match") ∧
    (getStep (stateOf oracleNoShasum "tbv" "" "/w").progress .compare).status =
      Status.fail :=
  ⟨(c10_missing_registry_digest_never_true oracleNoShasum "tbv" "" "/w"
      infoNoShasum
      ⟨some ⟨some "git", some "git+https://x/y.git"⟩, none, none, none⟩
      rfl (by decide) (by decide) (by decide)).1,
   (c10_missing_registry_digest_never_true oracleNoShasum "tbv" "" "/w"
      infoNoShasum
      ⟨some ⟨some "git", some "git+https://x/y.git"⟩, none, none, none⟩
      rfl (by decide) (by decide) (by decide)).2,
   by decide⟩

/-- Claim C7: digest extraction is total over valid input.  Every pack output
containing a substring matching `shasum:\s+([0-9a-f]{40})` yields exactly
such a captured group — a 40-character lowercase-hex string occurring in the
output right after `shasum:` and whitespace — as `remoteShasum`, and the pack
phase then passes with that digest; an output with no matching substring
yields no digest, and the pack phase is marked
`Fail("Error parsing shasum from pack output")` and returns `{}`. -/
theorem c7_shasum_extraction (out : String) :
    (HasShasumMatch out →
      ∃ h, extractShasum out = some h ∧ h.data.length = 40 ∧
        h.data.all isHexChar = true ∧
        ∃ pre w post, out.data = pre ++ "shasum:".data ++ w ++ h.data ++ post ∧
          w ≠ [] ∧ w.all isJsWs = true) ∧
    (extractShasum out = none → ¬ HasShasumMatch out) ∧
    (∀ (o : Oracle) (td : Option String) (s0 : EngState),
      o.npmPackFirst = some out → extractShasum out = none →
      ∃ s1, pack o td s0 = Except.ok ({ remoteShasum := none }, s1) ∧
        (getStep s1.progress .pack).status = .fail ∧
        (getStep s1.progress .pack).message =
          some "Error parsing shasum from pack output") ∧
    (∀ (o : Oracle) (td : Option String) (s0 : EngState) (h : String),
      o.npmPackFirst = some out → extractShasum out = some h →
      ∃ s1, pack o td s0 = Except.ok ({ remoteShasum := some h }, s1) ∧
        (getStep s1.progress .pack).status = .pass) := by
  have complete : HasShasumMatch out → ∃ h, scanShasum out.data = some h := by
    rintro ⟨pre, w, hex, post, heq, hne, hw, hlen, hhex⟩
    obtain ⟨h, hsc⟩ := scanShasum_complete pre w hex post hne hw hlen hhex
    refine ⟨h, ?_⟩
    rw [heq]
    simpa using hsc
  refine ⟨?_, ?_, ?_, ?_⟩
  · intro hmatch
    obtain ⟨h, hsc⟩ := complete hmatch
    obtain ⟨pre', w', rest', heq', hne', hw', hlen', hall'⟩ := scanShasum_sound _ _ hsc
    exact ⟨⟨h⟩, by unfold extractShasum; rw [hsc]; rfl, hlen', hall',
      pre', w', rest', by simpa using heq', hne', hw'⟩
  · intro hnone hmatch
    obtain ⟨h, hsc⟩ := complete hmatch
    unfold extractShasum at hnone
    rw [hsc] at hnone
    simp at hnone
  · intro o td s0 hp hnone
    unfold pack packParse
    rw [hp]
    try dsimp only
    rw [hnone]
    try dsimp only
    exact ⟨_, rfl, by simp [updateProgress, getStep, setStep],
      by simp [updateProgress, getStep, setStep]⟩
  · intro o td s0 h hp hsome
    unfold pack packParse
    rw [hp]
    try dsimp only
    rw [hsome]
    try dsimp only
    exact ⟨_, rfl, by simp [updateProgress, getStep, setStep]⟩

/-- Witness for C7: a concrete output with a digest and a concrete output
without one, and the corresponding pack runs. -/
theorem c7_shasum_extraction_witness :
    (∃ h, extractShasum ("shasum: " ++ hexA) = some h ∧ h.data.length = 40 ∧
      h.data.all isHexChar = true ∧
      ∃ pre w post, ("shasum: " ++ hexA).data =
          pre ++ "shasum:".data ++ w ++ h.data ++ post ∧
        w ≠ [] ∧ w.all isJsWs = true) ∧
    ¬ HasShasumMatch "npm notice" ∧
    (∃ s1, pack oracleBadPack (some "/tmp/t1") (initState "/w") =
        Except.ok ({ remoteShasum := none }, s1) ∧
      (getStep s1.progress .pack).status = .fail ∧
      (getStep s1.progress .pack).message =
        some "Error parsing shasum from pack output") ∧
    (∃ s1, pack oracleHappy (some "/tmp/t1") (initState "/w") =
        Except.ok ({ remoteShasum := some hexA }, s1) ∧
      (getStep s1.progress .pack).status = .pass) :=
  ⟨(c7_shasum_extraction ("shasum: " ++ hexA)).1
      ⟨[], [' '], hexA.data, [], by decide, by decide, by decide, by decide, by decide⟩,
   (c7_shasum_extraction "npm notice").2.1 (by decide),
   (c7_shasum_extraction "npm notice").2.2.1 oracleBadPack (some "/tmp/t1")
      (initState "/w") rfl (by decide),
   (c7_shasum_extraction ("shasum: " ++ hexA)).2.2.2 oracleHappy (some "/tmp/t1")
      (initState "/w") hexA rfl (by decide)⟩

end Tbv
